import Mathlib

set_option maxRecDepth 4000


/-!
Verification development for the Adaptive Speech Buffering Engine
(`src/lib/vadManager.ts`) and the Multi-Key Rotation & Failover Manager
(the `ApiKeyManager` module) of the repository.

Embedding conventions:
* Durations and wall-clock instants are natural numbers of milliseconds.
  Every operation receives the current instant `now` explicitly (the source
  reads `Date.now()` inline); all `Date.now()` reads performed during one
  operation are modelled as the same instant, which is faithful whenever the
  operation finishes within a millisecond.
* Amplitudes (RMS volumes, thresholds) are rationals.  The root-mean-square
  computation of `processAudio` over a `Float32Array` is not reproduced; the
  resulting amplitude is the function's input, exactly as `processVolume`
  receives a pre-reduced scalar.
* JavaScript `null`/`undefined` number fields become `Option Nat`.  The
  source occasionally tests such fields for truthiness; every timestamp the
  program ever stores is positive, so truthiness coincides with `isSome`.
* The side effect of the source's lazy `isRateLimited` (clearing an expired
  cooldown in place) is modelled where it can fire: `getCurrentKey`'s
  fallback scan applies the clearing (`lazyClearKey`) to the key it
  returns, the only key that scan can mutate.  The selection paths
  (`getNextKey`) run `refreshKeyStates` first at the same instant, after
  which no key holds an expired cooldown, so the predicate there is
  embedded as its pure decision.
* Listener notification, persistence (`localStorage`) and console logging
  are out of scope; emitted chunks are returned values.
-/

namespace VAD

/-- Detector status, `VADState.status` in the source. -/
inductive VADStatus where
  | idle
  | buffering
  | sending
  | processing
deriving DecidableEq, Repr

/-- `VADConfig` from the source. -/
structure VADConfig where
  minSpeechDuration : Nat
  silenceThreshold : ℚ
  silenceDuration : Nat
  minChunkDuration : Nat
  maxChunkDuration : Nat
  enableFillerDetection : Bool
deriving DecidableEq, Repr

/-- The default configuration of the source (`private config = {...}`). -/
def defaultConfig : VADConfig :=
  { minSpeechDuration := 1000
    silenceThreshold := mkRat 1 10000
    silenceDuration := 2000
    minChunkDuration := 1000
    maxChunkDuration := 30000
    enableFillerDetection := true }

/-- `VADState` from the source (`vadConfidence` is kept for fidelity;
no claim depends on it). -/
structure VADState where
  isSpeaking : Bool
  silenceDuration : Nat
  speechDuration : Nat
  bufferDuration : Nat
  chunksSent : Nat
  totalSpeechTime : Nat
  totalSilenceTime : Nat
  vadConfidence : ℚ
  status : VADStatus
deriving DecidableEq, Repr

/-- `AudioChunk` from the source; the opaque `samples` payload and the
string `id` are dropped, `speechFraction` is the source's field named
speechRatio. -/
structure AudioChunk where
  startTime : Nat
  endTime : Nat
  duration : Nat
  speechFraction : ℚ
deriving DecidableEq, Repr

/-- The mutable fields of the `VADManager` class.  `audioBufferLen` models
`audioBuffer.length` (the number of pushed sample windows); the raw samples
are opaque to every policy decision. -/
structure VADManager where
  config : VADConfig
  state : VADState
  audioBufferLen : Nat
  bufferStartTime : Nat
  lastSpeechTime : Nat
  lastUpdateTime : Nat
deriving DecidableEq, Repr

/-- A freshly constructed manager (all accumulators zero, status idle). -/
def vadInit : VADManager :=
  { config := defaultConfig
    state :=
      { isSpeaking := false
        silenceDuration := 0
        speechDuration := 0
        bufferDuration := 0
        chunksSent := 0
        totalSpeechTime := 0
        totalSilenceTime := 0
        vadConfidence := 0
        status := VADStatus.idle }
    audioBufferLen := 0
    bufferStartTime := 0
    lastSpeechTime := 0
    lastUpdateTime := 0 }

/-- `resetBuffer` from the source. -/
def resetBuffer (m : VADManager) : VADManager :=
  { m with
    audioBufferLen := 0
    bufferStartTime := 0
    state :=
      { m.state with
        bufferDuration := 0
        speechDuration := 0
        silenceDuration := 0
        status := VADStatus.idle } }

/-- `sendChunk` from the source: guards against too-short buffers, builds
the chunk from the pre-reset accumulators, then resets the buffer.  The
chunk handed to the `onChunk` listeners is the returned value.  The
source's `speechDuration / Math.max(1, bufferDuration)` is written
`mkRat a b`, which equals the rational `a / b` (`Rat.mkRat_eq_div`, proved
on the concrete values where a claim needs it). -/
def sendChunk (now : Nat) (m : VADManager) : Option AudioChunk × VADManager :=
  if m.state.bufferDuration < m.config.minChunkDuration then
    (none, m)
  else
    let chunk : AudioChunk :=
      { startTime := m.bufferStartTime
        endTime := now
        duration := m.state.bufferDuration
        speechFraction :=
          mkRat m.state.speechDuration (max 1 m.state.bufferDuration) }
    let m1 := { m with state :=
      { m.state with chunksSent := m.state.chunksSent + 1, status := VADStatus.sending } }
    (some chunk, resetBuffer m1)

/-- `checkSendConditions` from the source. -/
def checkSendConditions (now : Nat) (m : VADManager) : Option AudioChunk × VADManager :=
  let shouldSend :=
    (m.config.minSpeechDuration ≤ m.state.speechDuration ∧
      m.config.silenceDuration ≤ m.state.silenceDuration) ∨
    m.config.maxChunkDuration ≤ m.state.bufferDuration
  if shouldSend ∧ m.config.minChunkDuration ≤ m.state.bufferDuration then
    sendChunk now m
  else
    (none, m)

/-- `processVolume` from the source.  The first ever call uses the default
`deltaTime = 16` (the source's `lastUpdateTime ? now - lastUpdateTime : 16`
with `0` falsy). -/
def processVolume (now : Nat) (volume : ℚ) (m : VADManager) :
    Bool × Option AudioChunk × VADManager :=
  let deltaTime := if m.lastUpdateTime = 0 then 16 else now - m.lastUpdateTime
  let m := { m with lastUpdateTime := now }
  let speaking : Bool := decide (m.config.silenceThreshold < volume)
  let conf : ℚ := min 1 (volume / (m.config.silenceThreshold * 3))
  if speaking then
    let st : VADState :=
      { m.state with
        isSpeaking := true
        vadConfidence := conf
        speechDuration := m.state.speechDuration + deltaTime
        totalSpeechTime := m.state.totalSpeechTime + deltaTime
        silenceDuration := 0 }
    let bufferStartTime := if st.bufferDuration = 0 then now else m.bufferStartTime
    let st := { st with bufferDuration := now - bufferStartTime, status := VADStatus.buffering }
    let m := { m with state := st, bufferStartTime := bufferStartTime, lastSpeechTime := now }
    let r := checkSendConditions now m
    (true, r.1, r.2)
  else
    let st : VADState :=
      { m.state with
        isSpeaking := false
        vadConfidence := conf
        silenceDuration := m.state.silenceDuration + deltaTime
        totalSilenceTime := m.state.totalSilenceTime + deltaTime }
    let st : VADState :=
      if 0 < st.bufferDuration then
        { st with bufferDuration := now - m.bufferStartTime }
      else st
    let m := { m with state := st }
    let r := checkSendConditions now m
    (false, r.1, r.2)

/-- `processAudio` from the source, with `amp` standing for the RMS of the
tick's sample window (`calculateRMS(samples)`).  The first ever call uses
`deltaTime = 0`, and the buffer-open test is `audioBuffer.length === 0`. -/
def processAudio (now : Nat) (amp : ℚ) (m : VADManager) :
    Bool × Option AudioChunk × VADManager :=
  let deltaTime := if m.lastUpdateTime = 0 then 0 else now - m.lastUpdateTime
  let m := { m with lastUpdateTime := now }
  let speaking : Bool := decide (m.config.silenceThreshold < amp)
  let conf : ℚ := min 1 (amp / (m.config.silenceThreshold * 3))
  if speaking then
    let st : VADState :=
      { m.state with
        isSpeaking := true
        vadConfidence := conf
        speechDuration := m.state.speechDuration + deltaTime
        totalSpeechTime := m.state.totalSpeechTime + deltaTime
        silenceDuration := 0 }
    let bufferStartTime := if m.audioBufferLen = 0 then now else m.bufferStartTime
    let st := { st with bufferDuration := now - bufferStartTime, status := VADStatus.buffering }
    let m :=
      { m with
        state := st
        bufferStartTime := bufferStartTime
        lastSpeechTime := now
        audioBufferLen := m.audioBufferLen + 1 }
    let r := checkSendConditions now m
    (true, r.1, r.2)
  else
    let st : VADState :=
      { m.state with
        isSpeaking := false
        vadConfidence := conf
        silenceDuration := m.state.silenceDuration + deltaTime
        totalSilenceTime := m.state.totalSilenceTime + deltaTime }
    let st2 : VADState :=
      if 0 < st.bufferDuration then { st with bufferDuration := now - m.bufferStartTime }
      else st
    let m :=
      { m with
        state := st2
        audioBufferLen :=
          if 0 < st.bufferDuration then m.audioBufferLen + 1 else m.audioBufferLen }
    let r := checkSendConditions now m
    (false, r.1, r.2)

/-- `stop` from the source: flush a sufficiently long buffer, then idle. -/
def stop (now : Nat) (m : VADManager) : Option AudioChunk × VADManager :=
  let r :=
    if m.config.minChunkDuration ≤ m.state.bufferDuration then sendChunk now m
    else (none, m)
  (r.1, { r.2 with state := { r.2.state with status := VADStatus.idle } })

/-- `forceFlush` from the source. -/
def forceFlush (now : Nat) (m : VADManager) : Option AudioChunk × VADManager :=
  if 0 < m.audioBufferLen ∨ 0 < m.state.bufferDuration then sendChunk now m
  else (none, m)

/-- One externally triggered detector operation. -/
inductive VADOp where
  | procAudio (now : Nat) (amp : ℚ)
  | procVolume (now : Nat) (volume : ℚ)
  | flush (now : Nat)
  | stopOp (now : Nat)
deriving DecidableEq, Repr

/-- Apply one operation, returning the chunk it emitted, if any. -/
def stepOp (m : VADManager) : VADOp → Option AudioChunk × VADManager
  | VADOp.procAudio now amp => (( processAudio now amp m).2.1, ( processAudio now amp m).2.2)
  | VADOp.procVolume now v => ((processVolume now v m).2.1, (processVolume now v m).2.2)
  | VADOp.flush now => forceFlush now m
  | VADOp.stopOp now => stop now m

/-- Run a sequence of operations, collecting every emitted chunk. -/
def runOps (m : VADManager) : List VADOp → List AudioChunk × VADManager
  | [] => ([], m)
  | op :: ops =>
    let r := stepOp m op
    let rest := runOps r.2 ops
    (r.1.toList ++ rest.1, rest.2)

/-- A 100 ms tick stream with 1500 ms above the silence threshold
(amplitude 1 at 1000,1100,...,2500 ms) followed by 2000 ms below it
(amplitude 0 at 2600,...,4500 ms).  Times start away from 0 because the
source treats a zero `lastUpdateTime` as "no previous tick". -/
def c6Ticks : List VADOp :=
  (List.range 16).map (fun i => VADOp.procAudio (1000 + 100 * i) 1) ++
    (List.range 20).map (fun i => VADOp.procAudio (2600 + 100 * i) 0)

end VAD

namespace KeyManager

/-- `RATE_LIMIT_COOLDOWN_MS` from the source. -/
def RATE_LIMIT_COOLDOWN_MS : Nat := 60000

/-- `QUOTA_EXHAUSTED_COOLDOWN_MS` from the source. -/
def QUOTA_EXHAUSTED_COOLDOWN_MS : Nat := 3600000

/-- `MAX_FAIL_COUNT` from the source. -/
def MAX_FAIL_COUNT : Nat := 3

/-- `ApiKey` from the source.  The string id `key_${Date.now()}_${random}`
is modelled as an abstract numeric token supplied by the caller of `addKey`
(injected randomness); `lastUsed` stores the instant instead of its ISO
rendering. -/
structure ApiKey where
  id : Nat
  key : String
  name : String
  isActive : Bool
  isPrimary : Bool
  lastUsed : Option Nat
  rateLimited : Bool
  rateLimitedUntil : Option Nat
  failCount : Nat
  isDisabled : Bool
  usageCount : Nat
  lastError : Option String := none
  cooldownUntil : Option Nat := none
deriving DecidableEq, Repr

/-- `KeyManagerState` from the source. -/
structure KeyManagerState where
  keys : List ApiKey
  currentIndex : Nat
  shuffleMode : Bool
  totalCalls : Nat
  lastError : Option String
  lastRotationReason : Option String := none
deriving DecidableEq, Repr

/-- The in-memory state of a freshly constructed manager with no stored
keys. -/
def initState : KeyManagerState :=
  { keys := []
    currentIndex := 0
    shuffleMode := false
    totalCalls := 0
    lastError := none }

/-- The decision of the source's `isRateLimited`.  Its in-place lazy
clearing of an expired cooldown is `lazyClearKey` below, applied where it
can fire (`getCurrentKeyIdx`'s fallback scan); the selection paths run
`refreshKeyStates` first at the same instant, after which no key holds an
expired cooldown and the clearing cannot fire. -/
def isRateLimited (now : Nat) (k : ApiKey) : Bool :=
  if !k.rateLimited then false
  else
    match k.rateLimitedUntil with
    | none => false
    | some t => if t ≤ now then false else true

/-- The candidate test of `getNextKey`: `!key.isDisabled && !isRateLimited(key)`. -/
def eligibleKey (now : Nat) (k : ApiKey) : Bool :=
  !k.isDisabled && !(isRateLimited now k)

/-- The per-key body of `refreshKeyStates`: clear an expired rate-limit
cooldown (re-enabling the key), clear an expired quota cooldown
(re-enabling the key), and re-enable a disabled key that has no active
cooldown fields at all. -/
def refreshKey (now : Nat) (k : ApiKey) : ApiKey :=
  let k1 :=
    match k.rateLimitedUntil with
    | some t =>
      if t ≤ now then
        { k with rateLimited := false, rateLimitedUntil := none, failCount := 0,
                 isDisabled := false }
      else k
    | none => k
  let k2 :=
    match k1.cooldownUntil with
    | some t =>
      if t ≤ now then
        { k1 with cooldownUntil := none, failCount := 0, isDisabled := false }
      else k1
    | none => k1
  if k2.isDisabled && !k2.rateLimited && k2.rateLimitedUntil.isNone &&
      k2.cooldownUntil.isNone then
    { k2 with isDisabled := false, failCount := 0 }
  else k2

/-- `refreshKeyStates` from the source. -/
def refreshKeyStates (now : Nat) (s : KeyManagerState) : KeyManagerState :=
  { s with keys := s.keys.map (refreshKey now) }

/-- First key satisfying a predicate, together with its position
(`Array.prototype.find` on a keys array whose elements are then mutated in
place; the embedding needs the position to perform the update). -/
def findIdxFrom (p : ApiKey → Bool) : List ApiKey → Nat → Option (Nat × ApiKey)
  | [], _ => none
  | k :: ks, n => if p k then some (n, k) else findIdxFrom p ks (n + 1)

/-- The in-place clearing the source's `isRateLimited` performs when it
finds an expired cooldown: `rateLimited`, `rateLimitedUntil` and
`failCount` are cleared, and a non-primary key is re-enabled (the function
then reports the key as not rate-limited). -/
def lazyClearKey (now : Nat) (k : ApiKey) : ApiKey :=
  if !k.rateLimited then k
  else
    match k.rateLimitedUntil with
    | none => k
    | some t =>
      if t ≤ now then
        let k1 := { k with rateLimited := false, rateLimitedUntil := none, failCount := 0 }
        if k1.isDisabled && !k1.isPrimary then { k1 with isDisabled := false } else k1
      else k

/-- `getCurrentKey` from the source, returning the found key together with
its position and the lazy-expiry side effect of the fallback scan: the
active non-disabled key (no `isRateLimited` call), else the first key with
`!isDisabled && !isRateLimited(k)`.  The mutating `isRateLimited` can only
touch the key that scan stops at — a disabled key is skipped before
`isRateLimited` is called, a key on which it returns `true` is left
unmodified, and a key on which it returns `false` ends the scan — so the
returned key carries the clearing (`lazyClearKey`, a no-op unless its
cooldown expired) and is written back at its position. -/
def getCurrentKeyIdx (now : Nat) (s : KeyManagerState) :
    Option (Nat × ApiKey) × KeyManagerState :=
  match findIdxFrom (fun k => k.isActive && !k.isDisabled) s.keys 0 with
  | some r => (some r, s)
  | none =>
    match findIdxFrom (fun k => eligibleKey now k) s.keys 0 with
    | some (i, k) =>
      let k1 := lazyClearKey now k
      (some (i, k1), { s with keys := s.keys.set i k1 })
    | none => (none, s)

/-- `getCurrentKey` from the source (key only). -/
def getCurrentKey (now : Nat) (s : KeyManagerState) : Option ApiKey :=
  Option.map Prod.snd (getCurrentKeyIdx now s).1

/-- The `availableKeys` list of `getNextKey`: keys paired with their index,
filtered by the candidate test (`n` is the index of the list's head). -/
def availableIdxFrom (now : Nat) : List ApiKey → Nat → List (Nat × ApiKey)
  | [], _ => []
  | k :: ks, n =>
    if eligibleKey now k then (n, k) :: availableIdxFrom now ks (n + 1)
    else availableIdxFrom now ks (n + 1)

/-- `availableKeys` of `getNextKey` (indices from 0). -/
def availableIdx (now : Nat) (keys : List ApiKey) : List (Nat × ApiKey) :=
  availableIdxFrom now keys 0

/-- The round-robin scan of `getNextKey`: the first index
`(currentIndex + i) % keys.length` (for `i = 0, 1, ...`) holding an
eligible key. -/
def findAvailableFrom (now : Nat) (keys : List ApiKey) (start : Nat) : Option Nat :=
  ((List.range keys.length).find? (fun i =>
      match keys[(start + i) % keys.length]? with
      | some k => eligibleKey now k
      | none => false)).map
    (fun i => (start + i) % keys.length)

/-- The update `getNextKey` applies to the selected key: `usageCount + 1`,
a fresh `lastUsed` stamp, `isActive = true`. -/
def activated (now : Nat) (k : ApiKey) : ApiKey :=
  { k with usageCount := k.usageCount + 1, lastUsed := some now, isActive := true }

/-- The update `getNextKey` applies to every non-selected key. -/
def deactivated (k : ApiKey) : ApiKey :=
  { k with isActive := false }

/-- The activation step of `getNextKey`: the selected key gets
`usageCount + 1`, a fresh `lastUsed` stamp and `isActive = true`; every
other key gets `isActive = false` (`n` is the index of the list's head). -/
def activateAt (now : Nat) (sel : Nat) : List ApiKey → Nat → List ApiKey
  | [], _ => []
  | k :: ks, n =>
    (if n = sel then activated now k else deactivated k) :: activateAt now sel ks (n + 1)

/-- `getNextKey` from the source: refresh, collect candidates, fall back to
a non-disabled primary when none are left, otherwise select by shuffle
(`rand` is the injected randomness) or round-robin, then activate the
selection and advance `currentIndex` past it. -/
def getNextKey (now rand : Nat) (s0 : KeyManagerState) :
    Option ApiKey × KeyManagerState :=
  let s := refreshKeyStates now s0
  if s.keys.isEmpty then (none, s)
  else
    let available := availableIdx now s.keys
    if hav : available = [] then
      match s.keys.find? (fun k => k.isPrimary && !k.isDisabled) with
      | some p => (some p, s)
      | none => (none, s)
    else
      let nextIndex :=
        if s.shuffleMode then
          (available.get ⟨rand % available.length,
            Nat.mod_lt _ (List.length_pos.mpr hav)⟩).1
        else
          match findAvailableFrom now s.keys s.currentIndex with
          | some j => j
          | none => (available.head hav).1
      let keys2 := activateAt now nextIndex s.keys 0
      (keys2[nextIndex]?,
       { s with
         keys := keys2
         currentIndex := (nextIndex + 1) % s.keys.length
         totalCalls := s.totalCalls + 1 })

/-- `addKey` from the source: the first key ever added becomes primary and
active; `idTok` stands for the generated unique id. -/
def addKey (idTok : Nat) (key : String) (name : Option String)
    (s : KeyManagerState) : ApiKey × KeyManagerState :=
  let defaultName := "Key " ++ toString (s.keys.length + 1)
  let newKey : ApiKey :=
    { id := idTok
      key := key.trim
      name :=
        match name with
        | some n => if n.trim = "" then defaultName else n.trim
        | none => defaultName
      isActive := decide (s.keys.length = 0)
      isPrimary := decide (s.keys.length = 0)
      lastUsed := none
      rateLimited := false
      rateLimitedUntil := none
      failCount := 0
      isDisabled := false
      usageCount := 0 }
  (newKey, { s with keys := s.keys ++ [newKey] })

/-- JavaScript's `string.includes(sub)` for a non-empty `sub`. -/
def containsSubstr (s sub : String) : Bool := decide (2 ≤ (s.splitOn sub).length)

/-- `errorMessage?.toLowerCase().includes(sub)` with an absent message
counting as `false`. -/
def msgHas (msg : Option String) (sub : String) : Bool :=
  match msg with
  | none => false
  | some m => containsSubstr (m.map Char.toLower) sub

/-- JavaScript `m || d` on an optional string (empty strings are falsy). -/
def orElseStr (msg : Option String) (d : String) : String :=
  match msg with
  | some m => if m = "" then d else m
  | none => d

/-- The per-key classification of `handleError`: rate limit, quota, auth
and server branches, then the fail-count threshold check that never
disables the primary key. -/
def classifyKey (now code : Nat) (msg : Option String) (k : ApiKey) : ApiKey :=
  let k0 := { k with lastError := some (orElseStr msg ("Error " ++ toString code)) }
  let isRateLimit := (code == 429) || msgHas msg "rate limit"
  let isQuota := msgHas msg "quota"
  let isServer := decide (500 ≤ code) && decide (code < 600)
  let isAuth := (code == 401) || (code == 403)
  let k1 :=
    if isRateLimit then
      { k0 with rateLimited := true,
                rateLimitedUntil := some (now + RATE_LIMIT_COOLDOWN_MS),
                failCount := k0.failCount + 1 }
    else if isQuota then
      { k0 with rateLimited := true,
                rateLimitedUntil := some (now + QUOTA_EXHAUSTED_COOLDOWN_MS),
                failCount := k0.failCount + 1 }
    else if isAuth then
      { k0 with isDisabled := true, failCount := MAX_FAIL_COUNT }
    else if isServer then
      { k0 with failCount := k0.failCount + 1 }
    else k0
  if decide (MAX_FAIL_COUNT ≤ k1.failCount) && !k1.isPrimary then
    { k1 with isDisabled := true }
  else k1

/-- The structured outcome of `handleError`. -/
structure HandleErrorResult where
  switched : Bool
  newKey : Option ApiKey
  message : String
deriving DecidableEq, Repr

/-- The state update of `handleError` before it re-runs the selection:
the classified current key is written back at its position, and
`lastRotationReason` / `lastError` are updated. -/
def classifyState (now code : Nat) (msg : Option String) (i : Nat) (cur : ApiKey)
    (s : KeyManagerState) : KeyManagerState :=
  let isRateLimit := (code == 429) || msgHas msg "rate limit"
  let isQuota := msgHas msg "quota"
  let isServer := decide (500 ≤ code) && decide (code < 600)
  let isAuth := (code == 401) || (code == 403)
  let reason :=
    if isRateLimit then some ("Rate limit on " ++ cur.name)
    else if isQuota then some ("Quota exhausted on " ++ cur.name)
    else if isAuth then some ("Auth error on " ++ cur.name)
    else if isServer then some ("Server error on " ++ cur.name)
    else s.lastRotationReason
  { s with
    keys := s.keys.set i (classifyKey now code msg cur)
    lastRotationReason := reason
    lastError := some (toString code ++ ": " ++ orElseStr msg "Unknown error") }

/-- `handleError` from the source: classify the error on the current key,
then re-run the selection; report `switched` iff it lands on a key with a
different id. -/
def handleError (now rand code : Nat) (msg : Option String)
    (s : KeyManagerState) : HandleErrorResult × KeyManagerState :=
  match getCurrentKeyIdx now s with
  | (none, _) => ({ switched := false, newKey := none, message := "No keys available" }, s)
  | (some (i, cur), s0) =>
    let isRateLimit := (code == 429) || msgHas msg "rate limit"
    let isQuota := msgHas msg "quota"
    let r := getNextKey now rand (classifyState now code msg i cur s0)
    match r.1 with
    | some nk =>
      if nk.id ≠ cur.id then
        let message :=
          if isRateLimit then
            "Rate limit hit on " ++ cur.name ++ " – switching to " ++ nk.name
          else if isQuota then
            "Quota exhausted on " ++ cur.name ++ " – switching to " ++ nk.name
          else "Error on " ++ cur.name ++ " – switching to " ++ nk.name
        ({ switched := true, newKey := some nk, message := message }, r.2)
      else
        ({ switched := false, newKey := none,
           message := "All keys exhausted or unavailable" }, r.2)
    | none =>
      ({ switched := false, newKey := none,
         message := "All keys exhausted or unavailable" }, r.2)

end KeyManager

namespace VAD

/-- A manager mid-buffer: 1200 ms accumulated, all of it speech. -/
def c7m : VADManager :=
  { vadInit with
    bufferStartTime := 100
    lastUpdateTime := 100
    state :=
      { vadInit.state with
        bufferDuration := 1200
        speechDuration := 1200
        status := VADStatus.buffering } }

/-- The chunk `stop 5000` flushes out of `c7m`. -/
def c7chunk : AudioChunk :=
  { startTime := 100, endTime := 5000, duration := 1200, speechFraction := 1 }

/-- A manager mid-buffer with `b` ms accumulated. -/
def c8m (b : Nat) : VADManager :=
  { vadInit with
    bufferStartTime := 100
    lastUpdateTime := 100
    state :=
      { vadInit.state with
        bufferDuration := b
        speechDuration := b
        status := VADStatus.buffering } }

end VAD

namespace KeyManager

/-- The selection-relevant health fields of a key: disabled flag, fail
count, rate-limit flag and both cooldown timestamps. -/
def healthFields (k : ApiKey) : Bool × Nat × Bool × Option Nat × Option Nat :=
  (k.isDisabled, k.failCount, k.rateLimited, k.rateLimitedUntil, k.cooldownUntil)

/-- The rotation-observable fields of a key: usage count, last-used stamp
and active flag. -/
def rotFields (k : ApiKey) : Nat × Option Nat × Bool :=
  (k.usageCount, k.lastUsed, k.isActive)

/-- A fresh manager to which exactly three keys have been added. -/
def c3Pool : KeyManagerState :=
  (addKey 3 "secret3" none
    (addKey 2 "secret2" none (addKey 1 "secret1" none initState).2).2).2

/-- A fresh first key, as `addKey` creates it: primary and active, no
cooldown timestamp ever set. -/
def c2Key0 : ApiKey :=
  { id := 1, key := "keyA", name := "Key 1", isActive := true, isPrimary := true
    lastUsed := none, rateLimited := false, rateLimitedUntil := none
    failCount := 0, isDisabled := false, usageCount := 0 }

/-- A fresh second key, as `addKey` creates it. -/
def c2Key1 : ApiKey :=
  { id := 2, key := "keyB", name := "Key 2", isActive := false, isPrimary := false
    lastUsed := none, rateLimited := false, rateLimitedUntil := none
    failCount := 0, isDisabled := false, usageCount := 0 }

/-- Two fresh keys; the first is primary and active, neither has ever had a
cooldown timestamp. -/
def c2State : KeyManagerState :=
  { keys := [c2Key0, c2Key1], currentIndex := 0, shuffleMode := false
    totalCalls := 0, lastError := none }

/-- The current (first, active, primary) key of `c4State`. -/
def c4Key0 : ApiKey :=
  { id := 1, key := "keyA", name := "Key 1", isActive := true, isPrimary := true
    lastUsed := none, rateLimited := false, rateLimitedUntil := none
    failCount := 0, isDisabled := false, usageCount := 0 }

/-- The second key of `c4State`. -/
def c4Key1 : ApiKey :=
  { id := 2, key := "keyB", name := "Key 2", isActive := false, isPrimary := false
    lastUsed := none, rateLimited := false, rateLimitedUntil := none
    failCount := 0, isDisabled := false, usageCount := 0 }

/-- Two fresh keys for the rate-limit scenario. -/
def c4State : KeyManagerState :=
  { keys := [c4Key0, c4Key1], currentIndex := 0, shuffleMode := false
    totalCalls := 0, lastError := none }

/-- A key whose rate-limit cooldown (until instant 100) has expired and
which was disabled by accumulated failures. -/
def c5Key : ApiKey :=
  { id := 9, key := "x", name := "X", isActive := false, isPrimary := false
    lastUsed := none, rateLimited := true, rateLimitedUntil := some 100
    failCount := 2, isDisabled := true, usageCount := 0 }

/-- A pool holding only `c5Key`. -/
def c5State : KeyManagerState :=
  { keys := [c5Key], currentIndex := 0, shuffleMode := false, totalCalls := 0
    lastError := none }

/-- A non-disabled primary key that is rate-limited far into the future. -/
def c9Key : ApiKey :=
  { id := 7, key := "p", name := "P", isActive := true, isPrimary := true
    lastUsed := none, rateLimited := true, rateLimitedUntil := some 999999
    failCount := 1, isDisabled := false, usageCount := 4 }

/-- A pool where every key is disabled or rate-limited but the primary is
not disabled. -/
def c9State : KeyManagerState :=
  { keys := [c9Key], currentIndex := 0, shuffleMode := false, totalCalls := 9
    lastError := none }

end KeyManager

namespace VAD

theorem sendChunk_config (now : Nat) (m : VADManager) :
    ((sendChunk now m).2).config = m.config := by
  unfold sendChunk
  split <;> rfl

theorem sendChunk_emit_long (now : Nat) (m : VADManager) (c : AudioChunk)
    (h : (sendChunk now m).1 = some c) :
    m.config.minChunkDuration ≤ c.duration := by
  unfold sendChunk at h
  split at h
  · simp at h
  · next hge =>
    simp only [Option.some.injEq] at h
    subst h
    show m.config.minChunkDuration ≤ m.state.bufferDuration
    omega

theorem checkSend_config (now : Nat) (m : VADManager) :
    ((checkSendConditions now m).2).config = m.config := by
  simp only [checkSendConditions]
  split
  · exact sendChunk_config now m
  · rfl

theorem checkSend_emit_long (now : Nat) (m : VADManager) (c : AudioChunk)
    (h : (checkSendConditions now m).1 = some c) :
    m.config.minChunkDuration ≤ c.duration := by
  simp only [checkSendConditions] at h
  split at h
  · exact sendChunk_emit_long now m c h
  · simp at h

theorem stepOp_config (m : VADManager) (op : VADOp) :
    ((stepOp m op).2).config = m.config := by
  cases op with
  | procAudio now amp =>
    show (( processAudio now amp m).2.2).config = m.config
    simp only [ processAudio]
    split <;> (dsimp only; exact checkSend_config now _)
  | procVolume now v =>
    show ((processVolume now v m).2.2).config = m.config
    simp only [processVolume]
    split <;> (dsimp only; exact checkSend_config now _)
  | flush now =>
    show ((forceFlush now m).2).config = m.config
    unfold forceFlush
    split
    · exact sendChunk_config now m
    · rfl
  | stopOp now =>
    show ((stop now m).2).config = m.config
    unfold stop
    split
    · exact sendChunk_config now m
    · rfl

theorem stepOp_emit_long (m : VADManager) (op : VADOp) (c : AudioChunk)
    (h : (stepOp m op).1 = some c) :
    m.config.minChunkDuration ≤ c.duration := by
  cases op with
  | procAudio now amp =>
    simp only [stepOp, processAudio] at h
    split at h <;> (dsimp only at h; have hh := checkSend_emit_long now _ c h; exact hh)
  | procVolume now v =>
    simp only [stepOp, processVolume] at h
    split at h <;> (dsimp only at h; have hh := checkSend_emit_long now _ c h; exact hh)
  | flush now =>
    simp only [stepOp] at h
    unfold forceFlush at h
    split at h
    · exact sendChunk_emit_long now m c h
    · simp at h
  | stopOp now =>
    simp only [stepOp] at h
    unfold stop at h
    split at h
    · exact sendChunk_emit_long now m c h
    · simp at h

/-- Claim C1: the spec's invariant `speechDuration ≤ bufferDuration` after
every process call is the stated intent, but the code breaks it: a single
`processVolume` call on a fresh manager (volume 1, instant 1000, first-call
`deltaTime` default 16) leaves `speechDuration = 16` while
`bufferDuration = 0`, and a second speaking call 100 ms later leaves
`speechDuration = 116` with `bufferDuration` still 0, because the
buffer-start latch `bufferDuration === 0` re-fires on every speaking tick
of `processVolume`. -/
theorem claim_c1_code_evaluation :
    ((processVolume 1000 1 vadInit).2.2).state.speechDuration = 16 ∧
    ((processVolume 1000 1 vadInit).2.2).state.bufferDuration = 0 ∧
    ((processVolume 1100 1 (processVolume 1000 1 vadInit).2.2).2.2).state.speechDuration = 116 ∧
    ((processVolume 1100 1 (processVolume 1000 1 vadInit).2.2).2.2).state.bufferDuration = 0 := by
  decide

/-- Claim C6: with the default configuration (`minSpeechDuration = 1000`,
`silenceDuration = 2000`, `minChunkDuration = 1000`, `maxChunkDuration`
30000 and not reached), the 100 ms tick stream with 1500 ms of speech
followed by 2000 ms of silence emits exactly one chunk whose duration is
3500 ms and whose speech ratio is 1500/3500 = 3/7 ≈ 0.43, computed from the
pre-reset accumulators. -/
theorem claim_c6 :
    (runOps vadInit c6Ticks).1 =
      [{ startTime := 1000, endTime := 4500, duration := 3500,
         speechFraction := mkRat 1500 3500 }] ∧
    mkRat 1500 3500 = (1500 : ℚ) / 3500 ∧
    |mkRat 1500 3500 - 43/100| < 1/100 := by
  refine ⟨by decide, by rw [Rat.mkRat_eq_div] ; norm_num, ?_⟩
  rw [Rat.mkRat_eq_div]
  norm_num
  rw [abs_of_nonneg (by norm_num)]
  norm_num

/-- Claim C7: over every sequence of detector operations (`processAudio`,
`processVolume`, `forceFlush`, `stop`), every emitted chunk has
`duration ≥ minChunkDuration`; no shorter chunk ever reaches a subscriber. -/
theorem claim_c7 (m : VADManager) (ops : List VADOp) (c : AudioChunk)
    (h : c ∈ (runOps m ops).1) :
    m.config.minChunkDuration ≤ c.duration := by
  induction ops generalizing m with
  | nil => simp [runOps] at h
  | cons op ops ih =>
    simp only [runOps, List.mem_append] at h
    rcases h with h | h
    · rcases hos : (stepOp m op).1 with _ | c1
      · rw [hos] at h; simp at h
      · rw [hos] at h
        simp only [Option.toList_some, List.mem_singleton] at h
        subst h
        exact stepOp_emit_long m op c hos
    · have hrest := ih (stepOp m op).2 h
      rwa [stepOp_config m op] at hrest

/-- Witness for claim C7: the 1200 ms buffer of `c7m` flushed by `stop`
yields a chunk at least `minChunkDuration = 1000` ms long. -/
theorem claim_c7_witness : c7m.config.minChunkDuration ≤ c7chunk.duration :=
  claim_c7 c7m [VADOp.stopOp 5000] c7chunk (by decide)

/-- Claim C8: `stop()` flushes the in-progress buffer as exactly one final
chunk when `bufferDuration ≥ minChunkDuration` and emits nothing when it is
shorter; in both cases the detector status is idle afterwards. -/
theorem claim_c8 (m : VADManager) (now : Nat) :
    (m.config.minChunkDuration ≤ m.state.bufferDuration →
      ((stop now m).1.isSome = true ∧
        ((stop now m).2).state.status = VADStatus.idle)) ∧
    (m.state.bufferDuration < m.config.minChunkDuration →
      ((stop now m).1 = none ∧
        ((stop now m).2).state.status = VADStatus.idle)) := by
  constructor
  · intro h
    unfold stop sendChunk
    rw [if_pos h, if_neg (by omega)]
    exact ⟨rfl, rfl⟩
  · intro h
    unfold stop
    rw [if_neg (by omega)]
    exact ⟨rfl, rfl⟩

/-- Witness for claim C8: a 1200 ms buffer (against the 1000 ms minimum)
is flushed as one chunk and a 300 ms buffer is dropped, with the detector
idle afterwards in both cases. -/
theorem claim_c8_witness :
    ((stop 5000 (c8m 1200)).1.isSome = true ∧
      ((stop 5000 (c8m 1200)).2).state.status = VADStatus.idle) ∧
    ((stop 5000 (c8m 300)).1 = none ∧
      ((stop 5000 (c8m 300)).2).state.status = VADStatus.idle) :=
  ⟨(claim_c8 (c8m 1200) 5000).1 (by decide), (claim_c8 (c8m 300) 5000).2 (by decide)⟩

end VAD

namespace KeyManager

theorem findIdxFrom_spec (p : ApiKey → Bool) :
    ∀ (l : List ApiKey) (n i : Nat) (k : ApiKey),
      findIdxFrom p l n = some (i, k) →
        ∃ m, i = n + m ∧ l[m]? = some k ∧ p k = true := by
  intro l
  induction l with
  | nil => intro n i k h; simp [findIdxFrom] at h
  | cons a l ih =>
    intro n i k h
    simp only [findIdxFrom] at h
    split at h
    · next hp =>
      simp only [Option.some.injEq, Prod.mk.injEq] at h
      obtain ⟨rfl, rfl⟩ := h
      exact ⟨0, by omega, by simp, hp⟩
    · next hp =>
      obtain ⟨m, rfl, hm, hpk⟩ := ih (n + 1) i k h
      exact ⟨m + 1, by omega, by simpa using hm, hpk⟩

theorem getCurrentKeyIdx_found (now : Nat) (s s1 : KeyManagerState) (i : Nat)
    (cur : ApiKey) (h : getCurrentKeyIdx now s = (some (i, cur), s1)) :
    s1.keys[i]? = some cur := by
  unfold getCurrentKeyIdx at h
  cases h1 : findIdxFrom (fun k => k.isActive && !k.isDisabled) s.keys 0 with
  | some r =>
    simp only [h1, Prod.mk.injEq, Option.some.injEq] at h
    obtain ⟨hr, hs⟩ := h
    subst hs
    rw [hr] at h1
    obtain ⟨m, hm, hk, _⟩ := findIdxFrom_spec _ _ _ _ _ h1
    simpa [hm] using hk
  | none =>
    simp only [h1] at h
    cases h2 : findIdxFrom (fun k => eligibleKey now k) s.keys 0 with
    | some p =>
      rcases p with ⟨i0, k0⟩
      simp only [h2, Prod.mk.injEq, Option.some.injEq] at h
      obtain ⟨⟨hi, hc⟩, hs⟩ := h
      subst hi
      subst hc
      subst hs
      obtain ⟨m, hm, hk, _⟩ := findIdxFrom_spec _ _ _ _ _ h2
      have hk0 : s.keys[i0]? = some k0 := by simpa [hm] using hk
      have hlen : i0 < s.keys.length := (List.getElem?_eq_some.mp hk0).1
      show (s.keys.set i0 (lazyClearKey now k0))[i0]? = _
      rw [List.getElem?_set]
      simp [hlen]
    | none =>
      simp only [h2] at h
      simp at h

theorem availableIdxFrom_mem (now : Nat) :
    ∀ (l : List ApiKey) (n j : Nat) (k : ApiKey),
      (j, k) ∈ availableIdxFrom now l n →
        ∃ m, j = n + m ∧ l[m]? = some k ∧ eligibleKey now k = true := by
  intro l
  induction l with
  | nil => intro n j k h; simp [availableIdxFrom] at h
  | cons a l ih =>
    intro n j k h
    simp only [availableIdxFrom] at h
    split at h
    · next he =>
      rcases List.mem_cons.mp h with h1 | h1
      · simp only [Prod.mk.injEq] at h1
        obtain ⟨rfl, rfl⟩ := h1
        exact ⟨0, by omega, by simp, he⟩
      · obtain ⟨m, rfl, hm, hk⟩ := ih (n + 1) j k h1
        exact ⟨m + 1, by omega, by simpa using hm, hk⟩
    · obtain ⟨m, rfl, hm, hk⟩ := ih (n + 1) j k h
      exact ⟨m + 1, by omega, by simpa using hm, hk⟩

theorem mem_availableIdxFrom (now : Nat) :
    ∀ (l : List ApiKey) (n m : Nat) (k : ApiKey),
      l[m]? = some k → eligibleKey now k = true →
        (n + m, k) ∈ availableIdxFrom now l n := by
  intro l
  induction l with
  | nil => intro n m k h _; simp at h
  | cons a l ih =>
    intro n m k h he
    cases m with
    | zero =>
      simp only [List.getElem?_cons_zero, Option.some.injEq] at h
      subst h
      simp [availableIdxFrom, he]
    | succ m' =>
      simp only [List.getElem?_cons_succ] at h
      have hmem := ih (n + 1) m' k h he
      have harith : n + (m' + 1) = (n + 1) + m' := by omega
      rw [harith]
      simp only [availableIdxFrom]
      split
      · exact List.mem_cons_of_mem _ hmem
      · exact hmem

theorem findAvailableFrom_spec (now : Nat) (keys : List ApiKey) (start j : Nat)
    (h : findAvailableFrom now keys start = some j) :
    ∃ k, keys[j]? = some k ∧ eligibleKey now k = true := by
  unfold findAvailableFrom at h
  rcases Option.map_eq_some'.mp h with ⟨i, hfind, rfl⟩
  have hp := List.find?_some hfind
  cases hk : keys[(start + i) % keys.length]? with
  | none => rw [hk] at hp; simp at hp
  | some k => rw [hk] at hp; exact ⟨k, rfl, hp⟩

theorem activateAt_getElem (now sel : Nat) :
    ∀ (l : List ApiKey) (n j : Nat),
      (activateAt now sel l n)[j]? =
        (l[j]?).map (fun k => if n + j = sel then activated now k else deactivated k) := by
  intro l
  induction l with
  | nil => intro n j; simp [activateAt]
  | cons a l ih =>
    intro n j
    cases j with
    | zero => simp [activateAt]
    | succ j' =>
      simp only [activateAt, List.getElem?_cons_succ]
      rw [ih (n + 1) j']
      have harith : n + (j' + 1) = (n + 1) + j' := by omega
      rw [harith]

theorem activated_health (now : Nat) (k : ApiKey) :
    healthFields (activated now k) = healthFields k := rfl

theorem deactivated_health (k : ApiKey) :
    healthFields (deactivated k) = healthFields k := rfl

theorem refreshKey_rotFields (now : Nat) (k : ApiKey) :
    rotFields (refreshKey now k) = rotFields k := by
  rcases hru : k.rateLimitedUntil with _ | t <;>
    rcases hcd : k.cooldownUntil with _ | u <;>
      simp only [refreshKey, hru, hcd] <;>
        repeat' split <;> simp_all [rotFields]

theorem refreshKey_id (now : Nat) (k : ApiKey) :
    (refreshKey now k).id = k.id := by
  rcases hru : k.rateLimitedUntil with _ | t <;>
    rcases hcd : k.cooldownUntil with _ | u <;>
      simp only [refreshKey, hru, hcd] <;>
        repeat' split <;> simp_all

theorem refreshKey_isPrimary (now : Nat) (k : ApiKey) :
    (refreshKey now k).isPrimary = k.isPrimary := by
  rcases hru : k.rateLimitedUntil with _ | t <;>
    rcases hcd : k.cooldownUntil with _ | u <;>
      simp only [refreshKey, hru, hcd] <;>
        repeat' split <;> simp_all

theorem refreshKey_disabled_mono (now : Nat) (k : ApiKey)
    (h : (refreshKey now k).isDisabled = true) : k.isDisabled = true := by
  rcases hru : k.rateLimitedUntil with _ | t <;>
    rcases hcd : k.cooldownUntil with _ | u <;>
      simp only [refreshKey, hru, hcd] at h <;>
        repeat' split at h <;> simp_all

theorem refreshKey_ratelimited_mono (now : Nat) (k : ApiKey)
    (h : isRateLimited now (refreshKey now k) = true) : isRateLimited now k = true := by
  rcases hru : k.rateLimitedUntil with _ | t <;>
    rcases hcd : k.cooldownUntil with _ | u <;>
      simp only [refreshKey, hru, hcd] at h <;>
        repeat' split at h <;> simp_all [isRateLimited, hru]

theorem eligibleKey_refreshKey (now : Nat) (k : ApiKey)
    (h : eligibleKey now k = true) : eligibleKey now (refreshKey now k) = true := by
  simp only [eligibleKey, Bool.and_eq_true, Bool.not_eq_true'] at h ⊢
  obtain ⟨hd, hr⟩ := h
  constructor
  · cases hdis : (refreshKey now k).isDisabled
    · rfl
    · exact absurd (refreshKey_disabled_mono now k hdis) (by simp [hd])
  · cases hrl : isRateLimited now (refreshKey now k)
    · rfl
    · exact absurd (refreshKey_ratelimited_mono now k hrl) (by simp [hr])

theorem refreshKey_frozen (now t : Nat) (k : ApiKey)
    (hru : k.rateLimitedUntil = some t) (ht : ¬ t ≤ now)
    (hcd : k.cooldownUntil = none) : refreshKey now k = k := by
  simp [refreshKey, hru, hcd, ht]

theorem refreshKey_noop (now : Nat) (k : ApiKey)
    (h1 : k.rateLimitedUntil = none) (h2 : k.cooldownUntil = none)
    (h3 : k.isDisabled = false) : refreshKey now k = k := by
  simp [refreshKey, h1, h2, h3]

theorem refreshKey_auth_reenable (now : Nat) (k : ApiKey)
    (h1 : k.isDisabled = true) (h2 : k.rateLimited = false)
    (h3 : k.rateLimitedUntil = none) (h4 : k.cooldownUntil = none) :
    refreshKey now k = { k with isDisabled := false, failCount := 0 } := by
  simp [refreshKey, h1, h2, h3, h4]

theorem classifyKey_rateLimit (now code : Nat) (msg : Option String) (k : ApiKey)
    (h : ((code == 429) || msgHas msg "rate limit") = true) :
    (classifyKey now code msg k).rateLimited = true ∧
    (classifyKey now code msg k).rateLimitedUntil = some (now + RATE_LIMIT_COOLDOWN_MS) ∧
    (classifyKey now code msg k).failCount = k.failCount + 1 ∧
    (classifyKey now code msg k).cooldownUntil = k.cooldownUntil ∧
    (classifyKey now code msg k).id = k.id ∧
    (classifyKey now code msg k).isPrimary = k.isPrimary := by
  cases hb : decide (MAX_FAIL_COUNT ≤ k.failCount + 1) && !k.isPrimary <;>
    simp [classifyKey, h, hb]

theorem classifyKey_401 (now : Nat) (msg : Option String) (k : ApiKey)
    (hm1 : msgHas msg "rate limit" = false) (hm2 : msgHas msg "quota" = false) :
    (classifyKey now 401 msg k).isDisabled = true ∧
    (classifyKey now 401 msg k).failCount = MAX_FAIL_COUNT ∧
    (classifyKey now 401 msg k).rateLimited = k.rateLimited ∧
    (classifyKey now 401 msg k).rateLimitedUntil = k.rateLimitedUntil ∧
    (classifyKey now 401 msg k).cooldownUntil = k.cooldownUntil ∧
    (classifyKey now 401 msg k).id = k.id ∧
    (classifyKey now 401 msg k).isPrimary = k.isPrimary := by
  cases hb : decide (MAX_FAIL_COUNT ≤ MAX_FAIL_COUNT) && !k.isPrimary <;>
    simp [classifyKey, hm1, hm2, hb]

theorem pairwise_id_ne (s : KeyManagerState)
    (hids : s.keys.Pairwise (fun a b => a.id ≠ b.id))
    (a b : Nat) (x y : ApiKey) (ha : s.keys[a]? = some x) (hb : s.keys[b]? = some y)
    (hab : a ≠ b) : x.id ≠ y.id := by
  obtain ⟨hal, hxa⟩ := List.getElem?_eq_some.mp ha
  obtain ⟨hbl, hyb⟩ := List.getElem?_eq_some.mp hb
  rcases Nat.lt_or_ge a b with hlt | hge
  · have := List.pairwise_iff_getElem.mp hids a b hal hbl hlt
    rwa [hxa, hyb] at this
  · have hblt : b < a := by omega
    have := List.pairwise_iff_getElem.mp hids b a hbl hal hblt
    rw [hxa, hyb] at this
    exact this.symm

end KeyManager

namespace KeyManager

theorem getNextKey_keys (now rand : Nat) (s : KeyManagerState) (j : Nat) (k : ApiKey)
    (h : ((refreshKeyStates now s).keys)[j]? = some k) :
    ∃ k', (((getNextKey now rand s).2).keys)[j]? = some k' ∧
      healthFields k' = healthFields k ∧ k'.id = k.id ∧ k'.isPrimary = k.isPrimary := by
  simp only [getNextKey]
  split
  · exact ⟨k, h, rfl, rfl, rfl⟩
  · split
    · split
      · exact ⟨k, h, rfl, rfl, rfl⟩
      · exact ⟨k, h, rfl, rfl, rfl⟩
    · rw [activateAt_getElem, h]
      simp only [Option.map_some']
      refine ⟨_, rfl, ?_, ?_, ?_⟩ <;> (repeat' split) <;> rfl

theorem getNextKey_success (now rand : Nat) (s : KeyManagerState)
    (hne : availableIdx now (refreshKeyStates now s).keys ≠ []) :
    ∃ (sel : Nat) (ksel : ApiKey), ((refreshKeyStates now s).keys)[sel]? = some ksel ∧
      eligibleKey now ksel = true ∧
      (getNextKey now rand s).1 = some (activated now ksel) := by
  have hkeysne : (refreshKeyStates now s).keys ≠ [] := by
    intro hk
    exact hne (by rw [availableIdx, hk] ; rfl)
  have hempF : (refreshKeyStates now s).keys.isEmpty = false := by
    rcases hK : (refreshKeyStates now s).keys with _ | ⟨a, l⟩
    · exact absurd hK hkeysne
    · rfl
  rcases hsh : (refreshKeyStates now s).shuffleMode with _ | _
  · rcases hf : findAvailableFrom now (refreshKeyStates now s).keys
        (refreshKeyStates now s).currentIndex with _ | jj
    · rcases hp : (availableIdx now (refreshKeyStates now s).keys).head hne
        with ⟨sel, ksel⟩
      have hmem : (sel, ksel) ∈ availableIdx now (refreshKeyStates now s).keys := by
        rw [← hp] ; exact List.head_mem hne
      obtain ⟨m, hm, hk, he⟩ := availableIdxFrom_mem now _ 0 sel ksel hmem
      have hk0 : ((refreshKeyStates now s).keys)[sel]? = some ksel := by
        simpa [hm] using hk
      refine ⟨sel, ksel, hk0, he, ?_⟩
      simp only [getNextKey, hempF, Bool.false_eq_true, if_false, dif_neg hne, hsh, hf]
      rw [hp]
      rw [activateAt_getElem, hk0]
      simp
    · obtain ⟨ksel, hk, he⟩ := findAvailableFrom_spec now _ _ jj hf
      refine ⟨jj, ksel, hk, he, ?_⟩
      simp only [getNextKey, hempF, Bool.false_eq_true, if_false, dif_neg hne, hsh, hf]
      rw [activateAt_getElem, hk]
      simp
  · rcases hp : (availableIdx now (refreshKeyStates now s).keys).get
        ⟨rand % (availableIdx now (refreshKeyStates now s).keys).length,
          Nat.mod_lt _ (List.length_pos.mpr hne)⟩ with ⟨sel, ksel⟩
    have hmem : (sel, ksel) ∈ availableIdx now (refreshKeyStates now s).keys := by
      rw [← hp] ; exact List.get_mem _ _ _
    obtain ⟨m, hm, hk, he⟩ := availableIdxFrom_mem now _ 0 sel ksel hmem
    have hk0 : ((refreshKeyStates now s).keys)[sel]? = some ksel := by
      simpa [hm] using hk
    refine ⟨sel, ksel, hk0, he, ?_⟩
    simp only [getNextKey, hempF, Bool.false_eq_true, if_false, dif_neg hne, hsh, if_true]
    rw [hp]
    rw [activateAt_getElem, hk0]
    simp

end KeyManager

namespace KeyManager

/-- Claim C3: with shuffle off, a fresh manager holding exactly three keys
(ids 1, 2, 3 in registration order, no errors reported) hands out each key
exactly once over three consecutive `getNextKey()` calls, in registration
order, and the fourth call starts the cycle again at the first key. -/
theorem claim_c3 :
    Option.map ApiKey.id (getNextKey 100 0 c3Pool).1 = some 1 ∧
    Option.map ApiKey.id (getNextKey 200 0 (getNextKey 100 0 c3Pool).2).1 = some 2 ∧
    Option.map ApiKey.id
      (getNextKey 300 0 (getNextKey 200 0 (getNextKey 100 0 c3Pool).2).2).1 = some 3 ∧
    Option.map ApiKey.id
      (getNextKey 400 0 (getNextKey 300 0
        (getNextKey 200 0 (getNextKey 100 0 c3Pool).2).2).2).1 = some 1 := by
  decide

/-- Claim C10: when `getCurrentKey()` finds no key (for example on an empty
pool), `handleError` returns `switched = false`, no new key and the message
"No keys available", and the manager state is returned unchanged. -/
theorem claim_c10 (s : KeyManagerState) (now rand code : Nat) (msg : Option String)
    (h : getCurrentKey now s = none) :
    handleError now rand code msg s =
      ({ switched := false, newKey := none, message := "No keys available" }, s) := by
  have h1 : (getCurrentKeyIdx now s).1 = none := Option.map_eq_none'.mp h
  rcases hgc : getCurrentKeyIdx now s with ⟨o, s2⟩
  rw [hgc] at h1
  dsimp only at h1
  subst h1
  simp only [handleError, hgc]

/-- Witness for claim C10: the empty pool. -/
theorem claim_c10_witness :
    handleError 5 0 503 none initState =
      ({ switched := false, newKey := none, message := "No keys available" }, initState) :=
  claim_c10 initState 5 0 503 none (by decide)

/-- Claim C9: when the candidate set is empty (every key disabled or
rate-limited) and `getNextKey` falls back to the non-disabled primary key,
it performs no selection bookkeeping: the returned state is just the
refreshed state, whose `currentIndex`, `totalCalls` and per-key
`usageCount`, `lastUsed` and `isActive` all equal the pre-call values. -/
theorem claim_c9 (s : KeyManagerState) (now rand : Nat) (p : ApiKey)
    (hempty : availableIdx now (refreshKeyStates now s).keys = [])
    (hprim : (refreshKeyStates now s).keys.find?
      (fun k => k.isPrimary && !k.isDisabled) = some p) :
    getNextKey now rand s = (some p, refreshKeyStates now s) ∧
    (refreshKeyStates now s).currentIndex = s.currentIndex ∧
    (refreshKeyStates now s).totalCalls = s.totalCalls ∧
    (refreshKeyStates now s).keys.map rotFields = s.keys.map rotFields := by
  have hkeysne : (refreshKeyStates now s).keys ≠ [] := by
    intro hk
    rw [hk] at hprim
    simp at hprim
  have hempF : (refreshKeyStates now s).keys.isEmpty = false := by
    rcases hK : (refreshKeyStates now s).keys with _ | ⟨a, l⟩
    · exact absurd hK hkeysne
    · rfl
  refine ⟨?_, rfl, rfl, ?_⟩
  · simp only [getNextKey, hempF, Bool.false_eq_true, if_false]
    rw [dif_pos hempty]
    simp only [hprim]
  · show ((s.keys.map (refreshKey now)).map rotFields) = s.keys.map rotFields
    rw [List.map_map]
    exact List.map_congr_left (fun a _ => refreshKey_rotFields now a)

/-- Witness for claim C9: a pool holding one non-disabled primary key that
is rate-limited until instant 999999, queried at instant 5. -/
theorem claim_c9_witness :
    getNextKey 5 0 c9State = (some c9Key, refreshKeyStates 5 c9State) ∧
    (refreshKeyStates 5 c9State).currentIndex = c9State.currentIndex ∧
    (refreshKeyStates 5 c9State).totalCalls = c9State.totalCalls ∧
    (refreshKeyStates 5 c9State).keys.map rotFields = c9State.keys.map rotFields :=
  claim_c9 c9State 5 0 c9Key (by decide) (by decide)

/-- Claim C5: for a key whose `rateLimitedUntil` has passed
(`rateLimitedUntil = some t`, `t ≤ now`), `refreshKeyStates` clears
`rateLimited` and `rateLimitedUntil`, resets `failCount` to 0 and clears
`isDisabled`; the refreshed key is then in the candidate set that
`getNextKey` builds (which refreshes once more) at the same instant. -/
theorem claim_c5 (s : KeyManagerState) (now i t : Nat) (k : ApiKey)
    (hk : s.keys[i]? = some k) (ht : k.rateLimitedUntil = some t) (hpast : t ≤ now) :
    ((refreshKeyStates now s).keys)[i]? = some (refreshKey now k) ∧
    (refreshKey now k).rateLimited = false ∧
    (refreshKey now k).rateLimitedUntil = none ∧
    (refreshKey now k).failCount = 0 ∧
    (refreshKey now k).isDisabled = false ∧
    (i, refreshKey now k) ∈
      availableIdx now ((refreshKeyStates now (refreshKeyStates now s)).keys) := by
  have hget : ((refreshKeyStates now s).keys)[i]? = some (refreshKey now k) := by
    show ((s.keys.map (refreshKey now)))[i]? = _
    rw [List.getElem?_map, hk]
    rfl
  have hfields : (refreshKey now k).rateLimited = false ∧
      (refreshKey now k).rateLimitedUntil = none ∧
      (refreshKey now k).failCount = 0 ∧
      (refreshKey now k).isDisabled = false ∧
      refreshKey now (refreshKey now k) = refreshKey now k := by
    rcases hcd : k.cooldownUntil with _ | u
    · simp [refreshKey, ht, hcd, hpast]
    · by_cases hu : u ≤ now
      · simp [refreshKey, ht, hcd, hpast, hu]
      · simp [refreshKey, ht, hcd, hpast, hu]
  obtain ⟨h1, h2, h3, h4, hidem⟩ := hfields
  refine ⟨hget, h1, h2, h3, h4, ?_⟩
  have hget2 : ((refreshKeyStates now (refreshKeyStates now s)).keys)[i]? =
      some (refreshKey now k) := by
    show (((refreshKeyStates now s).keys.map (refreshKey now)))[i]? = _
    rw [List.getElem?_map, hget]
    simp [hidem]
  have helig : eligibleKey now (refreshKey now k) = true := by
    simp [eligibleKey, isRateLimited, h1, h4]
  have := mem_availableIdxFrom now _ 0 i (refreshKey now k) hget2 helig
  simpa using this

/-- Witness for claim C5: `c5Key` (rate-limited until 100, disabled, two
failures) refreshed at instant 200. -/
theorem claim_c5_witness :
    ((refreshKeyStates 200 c5State).keys)[0]? = some (refreshKey 200 c5Key) ∧
    (refreshKey 200 c5Key).rateLimited = false ∧
    (refreshKey 200 c5Key).rateLimitedUntil = none ∧
    (refreshKey 200 c5Key).failCount = 0 ∧
    (refreshKey 200 c5Key).isDisabled = false ∧
    (0, refreshKey 200 c5Key) ∈
      availableIdx 200 ((refreshKeyStates 200 (refreshKeyStates 200 c5State)).keys) :=
  claim_c5 c5State 200 0 100 c5Key (by decide) (by decide) (by decide)

end KeyManager

namespace KeyManager

/-- Claim C4: `handleError(code, msg)` whose classification is a rate
limit (`code = 429` or `msg` containing "rate limit"), at instant `now`,
on the current key — the key `getCurrentKey` returns, carrying its lazy
expiry clearing if a stale cooldown was present — with no quota cooldown,
in a pool of distinct-id keys: that key ends with `rateLimited = true`,
`rateLimitedUntil = now + 60000` and its `failCount` incremented by one,
and — since another non-disabled, non-rate-limited key exists (a second
eligible key besides the current one) — the selection run at the end of
`handleError` lands on a key with a different id, reported with
`switched = true`. -/
theorem claim_c4 (s s1 : KeyManagerState) (now rand code : Nat) (msg : Option String)
    (i : Nat) (cur : ApiKey) (j : Nat) (kj : ApiKey)
    (hrlc : ((code == 429) || msgHas msg "rate limit") = true)
    (hcur : getCurrentKeyIdx now s = (some (i, cur), s1))
    (hcd : cur.cooldownUntil = none)
    (hids : s1.keys.Pairwise (fun a b => a.id ≠ b.id))
    (hj : s1.keys[j]? = some kj) (hji : j ≠ i)
    (helig : eligibleKey now kj = true) :
    (((handleError now rand code msg s).2).keys[i]?).map
        (fun k => (k.rateLimited, k.rateLimitedUntil, k.failCount)) =
      some (true, some (now + RATE_LIMIT_COOLDOWN_MS), cur.failCount + 1) ∧
    (handleError now rand code msg s).1.switched = true ∧
    ((handleError now rand code msg s).1.newKey).isSome = true ∧
    ((handleError now rand code msg s).1.newKey).map ApiKey.id ≠ some cur.id := by
  obtain ⟨c_rl, c_ru, c_fc, c_cd, c_id, c_pr⟩ := classifyKey_rateLimit now code msg cur hrlc
  have hcuri : s1.keys[i]? = some cur := getCurrentKeyIdx_found now s s1 i cur hcur
  have hilen : i < s1.keys.length := (List.getElem?_eq_some.mp hcuri).1
  set sc := classifyState now code msg i cur s1 with hsc
  have hS1i : sc.keys[i]? = some (classifyKey now code msg cur) := by
    rw [hsc]
    show (s1.keys.set i (classifyKey now code msg cur))[i]? = _
    rw [List.getElem?_set]
    simp [hilen]
  have hS1j : sc.keys[j]? = some kj := by
    rw [hsc]
    show (s1.keys.set i (classifyKey now code msg cur))[j]? = _
    rw [List.getElem?_set_ne (Ne.symm hji)]
    exact hj
  have hnotle : ¬ (now + RATE_LIMIT_COOLDOWN_MS ≤ now) := by
    simp [RATE_LIMIT_COOLDOWN_MS]
  have hfrozen : refreshKey now (classifyKey now code msg cur) = classifyKey now code msg cur :=
    refreshKey_frozen now (now + RATE_LIMIT_COOLDOWN_MS) _ c_ru hnotle (by rw [c_cd, hcd])
  have hS2i : ((refreshKeyStates now sc).keys)[i]? = some (classifyKey now code msg cur) := by
    show (sc.keys.map (refreshKey now))[i]? = _
    rw [List.getElem?_map, hS1i]
    simp [hfrozen]
  have hS2j : ((refreshKeyStates now sc).keys)[j]? = some (refreshKey now kj) := by
    show (sc.keys.map (refreshKey now))[j]? = _
    rw [List.getElem?_map, hS1j]
    rfl
  have hne : availableIdx now (refreshKeyStates now sc).keys ≠ [] := by
    have hm := mem_availableIdxFrom now _ 0 j (refreshKey now kj) hS2j
      (eligibleKey_refreshKey now kj helig)
    exact List.ne_nil_of_mem (by simpa using hm)
  obtain ⟨sel, ksel, hsel, heligsel, hr1⟩ := getNextKey_success now rand sc hne
  have hineq : eligibleKey now (classifyKey now code msg cur) = false := by
    simp [eligibleKey, isRateLimited, c_rl, c_ru, hnotle]
  have hselne : sel ≠ i := by
    intro heqsel
    subst heqsel
    rw [hsel] at hS2i
    simp only [Option.some.injEq] at hS2i
    rw [hS2i] at heligsel
    rw [heligsel] at hineq
    simp at hineq
  obtain ⟨k0, hk0, hksel⟩ : ∃ k0, sc.keys[sel]? = some k0 ∧ ksel = refreshKey now k0 := by
    have h2 := hsel
    rw [show (refreshKeyStates now sc).keys = sc.keys.map (refreshKey now) from rfl,
      List.getElem?_map] at h2
    obtain ⟨k0, hk0, hk0e⟩ := Option.map_eq_some'.mp h2
    exact ⟨k0, hk0, hk0e.symm⟩
  have hk0s : s1.keys[sel]? = some k0 := by
    rw [hsc] at hk0
    rwa [show (classifyState now code msg i cur s1).keys =
      s1.keys.set i (classifyKey now code msg cur) from rfl,
      List.getElem?_set_ne (Ne.symm hselne)] at hk0
  have hidne : k0.id ≠ cur.id := pairwise_id_ne s1 hids sel i k0 cur hk0s hcuri hselne
  have hnkid : (activated now ksel).id = k0.id := by
    show ksel.id = k0.id
    rw [hksel]
    exact refreshKey_id now k0
  obtain ⟨kf, hkf, hkfh, _, _⟩ := getNextKey_keys now rand sc i _ hS2i
  have hcond : (activated now ksel).id ≠ cur.id := by
    rw [hnkid]
    exact hidne
  have h1 : kf.rateLimited = (classifyKey now code msg cur).rateLimited :=
    congrArg (fun q => q.2.2.1) hkfh
  have h2 : kf.failCount = (classifyKey now code msg cur).failCount :=
    congrArg (fun q => q.2.1) hkfh
  have h3 : kf.rateLimitedUntil = (classifyKey now code msg cur).rateLimitedUntil :=
    congrArg (fun q => q.2.2.2.1) hkfh
  simp only [handleError, hcur, ← hsc, hr1, if_pos hcond]
  refine ⟨?_, ?_, ?_, ?_⟩
  · rw [hkf]
    simp only [Option.map_some', Option.some.injEq]
    rw [h1, h2, h3, c_rl, c_ru, c_fc]
  · trivial
  · trivial
  · simp only [Option.map_some', ne_eq, Option.some.injEq]
    rw [hnkid]
    exact hidne

end KeyManager

namespace KeyManager

/-- Witness for claim C4: two fresh keys, error 429 on the active first
key at instant 1000; the manager switches to key 2 and the failed key is
rate-limited until 61000. -/
theorem claim_c4_witness :
    (((handleError 1000 0 429 none c4State).2).keys[0]?).map
        (fun k => (k.rateLimited, k.rateLimitedUntil, k.failCount)) =
      some (true, some (1000 + RATE_LIMIT_COOLDOWN_MS), c4Key0.failCount + 1) ∧
    (handleError 1000 0 429 none c4State).1.switched = true ∧
    ((handleError 1000 0 429 none c4State).1.newKey).isSome = true ∧
    ((handleError 1000 0 429 none c4State).1.newKey).map ApiKey.id ≠ some c4Key0.id :=
  claim_c4 c4State c4State 1000 0 429 none 0 c4Key0 1 c4Key1
    (by decide) (by decide) (by decide) (by decide) (by decide) (by decide) (by decide)

/-- Counterexample to claim C2: two fresh keys never rate-limited, error
401 on the active primary key at instant 1000.  The claim requires the key
to end with `isDisabled = true` and `failCount = 3`, surviving refreshes;
in fact the `refreshKeyStates` run by the selection call inside
`handleError` finds the key disabled with no cooldown fields and re-enables
it, so `handleError` already returns it with `isDisabled = false` and
`failCount = 0`, and it stays enabled after any further refresh. -/
theorem claim_c2_counterexample :
    (((handleError 1000 0 401 none c2State).2).keys[0]?).map
      (fun k => (k.isDisabled, k.failCount)) = some (false, 0) ∧
    (((refreshKeyStates 2000 ((handleError 1000 0 401 none c2State).2)).keys)[0]?).map
      ApiKey.isDisabled = some false := by
  decide

/-- Claim C2 (amended): `handleError(401, msg)` on a current key that never
had a cooldown timestamp sets `isDisabled = true` and `failCount = 3`
during classification, but the `refreshKeyStates` performed by the
selection call at the end of `handleError` immediately re-enables such a
key (no cooldown fields set): when `handleError` returns, the key has
`isDisabled = false` and `failCount = 0`, and it remains enabled after any
subsequent `refreshKeyStates`. -/
theorem claim_c2_amended (s s1 : KeyManagerState) (now rand nowR : Nat) (msg : Option String)
    (i : Nat) (cur : ApiKey)
    (hcur : getCurrentKeyIdx now s = (some (i, cur), s1))
    (hrl : cur.rateLimited = false) (hru : cur.rateLimitedUntil = none)
    (hcd : cur.cooldownUntil = none)
    (hm1 : msgHas msg "rate limit" = false) (hm2 : msgHas msg "quota" = false) :
    (classifyKey now 401 msg cur).isDisabled = true ∧
    (classifyKey now 401 msg cur).failCount = MAX_FAIL_COUNT ∧
    (((handleError now rand 401 msg s).2).keys[i]?).map healthFields =
      some (false, 0, false, none, none) ∧
    (((refreshKeyStates nowR ((handleError now rand 401 msg s).2)).keys)[i]?).map
      ApiKey.isDisabled = some false := by
  obtain ⟨a_dis, a_fc, a_rl, a_ru, a_cd, a_id, a_pr⟩ := classifyKey_401 now msg cur hm1 hm2
  have hcuri : s1.keys[i]? = some cur := getCurrentKeyIdx_found now s s1 i cur hcur
  have hilen : i < s1.keys.length := (List.getElem?_eq_some.mp hcuri).1
  set sc := classifyState now 401 msg i cur s1 with hsc
  have hS1i : sc.keys[i]? = some (classifyKey now 401 msg cur) := by
    rw [hsc]
    show (s1.keys.set i (classifyKey now 401 msg cur))[i]? = _
    rw [List.getElem?_set]
    simp [hilen]
  have hre : refreshKey now (classifyKey now 401 msg cur) =
      { classifyKey now 401 msg cur with isDisabled := false, failCount := 0 } :=
    refreshKey_auth_reenable now _ a_dis (by rw [a_rl, hrl]) (by rw [a_ru, hru])
      (by rw [a_cd, hcd])
  have hS2i : ((refreshKeyStates now sc).keys)[i]? =
      some { classifyKey now 401 msg cur with isDisabled := false, failCount := 0 } := by
    show (sc.keys.map (refreshKey now))[i]? = _
    rw [List.getElem?_map, hS1i]
    simp [hre]
  obtain ⟨kf, hkf, hkfh, _, _⟩ := getNextKey_keys now rand sc i _ hS2i
  have hREh : healthFields
      { classifyKey now 401 msg cur with isDisabled := false, failCount := 0 } =
      (false, 0, false, none, none) := by
    show ((false : Bool), (0 : Nat), (classifyKey now 401 msg cur).rateLimited,
      (classifyKey now 401 msg cur).rateLimitedUntil,
      (classifyKey now 401 msg cur).cooldownUntil) = (false, 0, false, none, none)
    rw [a_rl, hrl, a_ru, hru, a_cd, hcd]
  have hkh : healthFields kf = (false, 0, false, none, none) := hkfh.trans hREh
  have hfinal : ((handleError now rand 401 msg s).2) = (getNextKey now rand sc).2 := by
    simp only [handleError, hcur, ← hsc]
    cases hr : (getNextKey now rand sc).1 with
    | none => rfl
    | some nk => simp only [apply_ite Prod.snd, ite_self]
  refine ⟨a_dis, a_fc, ?_, ?_⟩
  · rw [hfinal, hkf]
    simp only [Option.map_some', Option.some.injEq]
    exact hkh
  · have hkfd : kf.isDisabled = false := congrArg (fun q => q.1) hkh
    have hkfu : kf.rateLimitedUntil = none := congrArg (fun q => q.2.2.2.1) hkh
    have hkfc : kf.cooldownUntil = none := congrArg (fun q => q.2.2.2.2) hkh
    have hnoop := refreshKey_noop nowR kf hkfu hkfc hkfd
    rw [hfinal]
    show (((getNextKey now rand sc).2).keys.map (refreshKey nowR))[i]?.map ApiKey.isDisabled
      = some false
    rw [List.getElem?_map, hkf]
    simp [hnoop, hkfd]

/-- Witness for the amended claim C2: two fresh keys, error 401 on the
active primary key at instant 1000, refreshed again at instant 999999. -/
theorem claim_c2_witness :
    (classifyKey 1000 401 none c2Key0).isDisabled = true ∧
    (classifyKey 1000 401 none c2Key0).failCount = MAX_FAIL_COUNT ∧
    (((handleError 1000 0 401 none c2State).2).keys[0]?).map healthFields =
      some (false, 0, false, none, none) ∧
    (((refreshKeyStates 999999 ((handleError 1000 0 401 none c2State).2)).keys)[0]?).map
      ApiKey.isDisabled = some false :=
  claim_c2_amended c2State c2State 1000 0 999999 none 0 c2Key0
    (by decide) (by decide) (by decide) (by decide) (by decide) (by decide)

end KeyManager
